import Mathlib

/-!
Verification of the QUIC interop runner core (`interop.py`, `run.py`) against
its natural-language specification.  The relevant Python functions are
shallowly embedded as executable Lean definitions: dictionaries become
association lists or finite functions, subprocess interactions become oracle
fields of an input record, and the spec's sentences are settled as theorems
about these definitions.
-/

/-- Embedding of `result.TestResult` (result.py): the three-valued verdict. -/
inductive TestResult where
  | SUCCEEDED
  | FAILED
  | UNSUPPORTED
deriving DecidableEq, Repr

/-- Substring search on character lists: does `needle` occur contiguously
inside `hay`?  Models Python's `in` operator on strings, as used line by line
in `InteropRunner._is_unsupported` and `_run_test`. -/
def listContains : List Char → List Char → Bool
  | [], needle => needle.isEmpty
  | c :: t, needle => needle.isPrefixOf (c :: t) || listContains t needle

/-- Substring search on strings, via `listContains`. -/
def strContains (hay needle : String) : Bool :=
  listContains hay.toList needle.toList

/-- Embedding of `InteropRunner._is_unsupported` (interop.py:104-107): some
output line contains `exited with code 127`, or some line contains
`exit status 127`. -/
def is_unsupported (lines : List String) : Bool :=
  lines.any (fun l => strContains l "exited with code 127") ||
    lines.any (fun l => strContains l "exit status 127")

/-- Environment of a single `InteropRunner._run_test` call (interop.py:395):
everything the function reads from the outside world.  `certMissing` models
the precheck at interop.py:436 (`cert.pem` absent from the certs directory);
`expired` models `subprocess.TimeoutExpired` being raised by the
`docker compose up` invocation; `lines` is the captured output split into
lines; `check` is the behaviour of `testcase.check()` (`none` models a raised
`FileNotFoundError`); `value` is what `testcase.result()` would return. -/
structure RunInput where
  certMissing : Bool
  expired : Bool
  lines : List String
  check : Option TestResult
  value : Int
deriving DecidableEq, Repr

/-- Observable outcome of one `_run_test` call: the verdict, the returned
numeric value, whether a `docker compose stop` is issued and with which
grace bound (the `timeout=60` at interop.py:543-549), whether the
server/client/sim log directories and the output log file are promoted into
the persistent log tree (interop.py:576-583), and whether the `www` and
`downloads` directories are additionally preserved (interop.py:584-589). -/
structure RunOutcome where
  status : TestResult
  value : Int
  stopGrace : Option Nat
  promoted : Bool
  savedWww : Bool
  savedDownloads : Bool
deriving DecidableEq, Repr

/-- Status computation of `InteropRunner._run_test` (interop.py:522-571):
`status` is initialised to `FAILED` and reclassified from the output only
when the subprocess did not time out: first the exit-127 substrings, then
the plain substring `client exited with code 0`, which hands over to
`testcase.check()` with a raised `FileNotFoundError` mapped to `FAILED`. -/
def classifyStatus (inp : RunInput) : TestResult :=
  if inp.expired then
    TestResult.FAILED
  else if is_unsupported inp.lines then
    TestResult.UNSUPPORTED
  else if inp.lines.any (fun l => strContains l "client exited with code 0") then
    match inp.check with
    | some r => r
    | none => TestResult.FAILED
  else
    TestResult.FAILED

/-- Embedding of `InteropRunner._run_test` (interop.py:395-610), restricted
to its observable outcome.  The early return at interop.py:436-439 (missing
`cert.pem`) yields `(FAILED, 0.0)` before any container is started and
before the log-promotion block is reached.  Otherwise the verdict is
`classifyStatus`; logs are promoted exactly when the final status is
`FAILED` or `SUCCEEDED` (interop.py:576); `www`/`downloads` are preserved
exactly when `save_files` is set and the status is `FAILED`
(interop.py:584). -/
def run_test (saveFiles : Bool) (inp : RunInput) : RunOutcome :=
  if inp.certMissing then
    { status := TestResult.FAILED, value := 0, stopGrace := none,
      promoted := false, savedWww := false, savedDownloads := false }
  else
    { status := classifyStatus inp
      value := inp.value
      stopGrace := if inp.expired then some 60 else none
      promoted := decide (classifyStatus inp = TestResult.FAILED) ||
        decide (classifyStatus inp = TestResult.SUCCEEDED)
      savedWww := saveFiles && decide (classifyStatus inp = TestResult.FAILED)
      savedDownloads := saveFiles && decide (classifyStatus inp = TestResult.FAILED) }

/-- Embedding of `MeasurementResult` (interop.py:29-31): a verdict plus a
details string. -/
structure MeasurementResult where
  result : TestResult
  details : String
deriving DecidableEq, Repr

/-- Rounding of an exact rational `a / b` (with `b > 0`) to the nearest
integer, as Python's float formatting does for `"{:.0f}".format` applied to
`statistics.mean(values)` (interop.py:628-629).  Expressed over integers:
`round(a/b) = floor((2a + b) / (2b))`.  Ties and float round-off are
immaterial at the inputs considered in this development. -/
def roundMeanDiv (a b : Int) : Int :=
  (2 * a + b).fdiv (2 * b)

/-- Heron iteration for the integer square root, with explicit fuel so that
it evaluates inside the kernel. -/
def sqrtFuel : Nat → Nat → Nat → Nat
  | 0, _, x => x
  | fuel + 1, n, x =>
    let next := (x + n / x) / 2
    if next < x then sqrtFuel fuel n next else x

/-- Integer square root (floor of the real square root), computed by Heron
iteration starting from `n` itself; the iteration is strictly decreasing, so
fuel `n` always suffices. -/
def natSqrt (n : Nat) : Nat :=
  if n ≤ 1 then n else sqrtFuel n n n

/-- Rounding of `sqrt(p / q)` (the sample standard deviation, with `p, q`
the numerator and denominator of the exact sample variance) to the nearest
integer, as Python's `"{:.0f}".format(statistics.stdev(values))` does
(interop.py:628-629).  `round(sqrt(p/q)) = floor((sqrt(4pq) + q) / (2q))`,
computed with the integer square root `natSqrt`. -/
def roundSqrtDiv (p q : Nat) : Nat :=
  (natSqrt (4 * p * q) + q) / (2 * q)

/-- Details string of a fully successful measurement (interop.py:628-630):
the source formats `statistics.mean` and `statistics.stdev` of the collected
values with the literal `"{:.0f} (Â± {:.0f}) {}"` — note the mojibake
`Â±` present byte-for-byte in interop.py line 628.  The exact sample
variance of `vs` is `(n·Σx² − S²) / (n(n−1))` with `S = Σx`. -/
def fmtDetails (vs : List Int) (unit : String) : String :=
  let n : Int := vs.length
  let s : Int := vs.sum
  let sq : Int := (vs.map (fun x => x * x)).sum
  let p : Nat := (n * sq - s * s).toNat
  let q : Nat := vs.length * (vs.length - 1)
  toString (roundMeanDiv s n) ++ " (Â± " ++ toString (roundSqrtDiv p q) ++ ") " ++ unit

/-- Embedding of the repetition loop of `InteropRunner._run_measurement`
(interop.py:612-631).  `env i` is the `_run_test` environment of repetition
`i` (0-based, the source passes `"%d" % (i+1)` as the log prefix); `fuel`
counts the remaining repetitions; `values` accumulates (in reverse) the
numeric values of the successful repetitions. -/
def run_measurement_loop (sf : Bool) (env : Nat → RunInput) (unit : String) :
    Nat → Nat → List Int → MeasurementResult
  | _, 0, values =>
    { result := TestResult.SUCCEEDED, details := fmtDetails values.reverse unit }
  | i, fuel + 1, values =>
    let out := run_test sf (env i)
    if out.status = TestResult.SUCCEEDED then
      run_measurement_loop sf env unit (i + 1) fuel (out.value :: values)
    else
      { result := out.status, details := "" }

/-- Embedding of `InteropRunner._run_measurement` (interop.py:612-631): run
the test executor `repetitions` times, short-circuiting at the first
non-`SUCCEEDED` result with empty details; on full success, report
`SUCCEEDED` with the mean/stdev details string. -/
def run_measurement (sf : Bool) (repetitions : Nat) (env : Nat → RunInput)
    (unit : String) : MeasurementResult :=
  run_measurement_loop sf env unit 0 repetitions []

/-- Matching of the regular expression `client.*exited with code 0` against
one line, following the spec's words ("Classification substrings", spec
section 6): an occurrence of `client` followed, after any gap on the same
line, by an occurrence of `exited with code 0`.  This is the spec-side
definition, kept to compare the claimed classification with the code's. -/
def regexClientExit0 (l : String) : Bool :=
  l.toList.tails.any (fun t =>
    ("client".toList).isPrefixOf t && listContains (t.drop 6) ("exited with code 0".toList))

/-- Verdict classification exactly as claim C1 states it (spec words): the
exit-127 substrings give `unsupported`; otherwise a match of the regular
expression `client.*exited with code 0` hands over to `test.check()`, with a
`FileNotFoundError` giving `failed`; otherwise `failed`. -/
def specVerdictC1 (inp : RunInput) : TestResult :=
  if is_unsupported inp.lines then TestResult.UNSUPPORTED
  else if inp.lines.any (fun l => regexClientExit0 l) then
    match inp.check with
    | some r => r
    | none => TestResult.FAILED
  else TestResult.FAILED

/-- Test cases and measurements are identified by their stable name
(spec section 3). -/
abbrev TestKey := String

/-- Environment oracles of `InteropRunner.run` (interop.py:633-718):
`testOutcome client server t` is the verdict that `_run_testcase` produces
for that cell, and `measResult client server m` the `MeasurementResult`
that `_run_measurement` produces. -/
structure RunOracle where
  testOutcome : String → String → TestKey → TestResult
  measResult : String → String → TestKey → MeasurementResult

/-- Result of the embedded `InteropRunner.run`: the test cells written (as
`(server, client, test, status)`, in execution order), the measurement
cells written, and the returned `nr_failed` count. -/
structure RunResult where
  testCells : List (String × String × TestKey × TestResult)
  measCells : List (String × String × TestKey × MeasurementResult)
  nrFailed : Nat
deriving Repr

/-- Loop body of `InteropRunner.run` for one (client, server) pair's test
cases (interop.py:654-686): record the status and increment `nr_failed`
when it is `FAILED`. -/
def runPairTests (oracle : RunOracle) (client server : String)
    (tests : List TestKey) (acc : RunResult) : RunResult :=
  tests.foldl (fun a t =>
    let status := oracle.testOutcome client server t
    { a with
      testCells := a.testCells ++ [(server, client, t, status)]
      nrFailed := a.nrFailed + (if status = TestResult.FAILED then 1 else 0) }) acc

/-- Loop body of `InteropRunner.run` for one (client, server) pair's
measurements (interop.py:689-713): record the result; `nr_failed` is not
touched. -/
def runPairMeasurements (oracle : RunOracle) (client server : String)
    (measurements : List TestKey) (acc : RunResult) : RunResult :=
  measurements.foldl (fun a m =>
    { a with
      measCells := a.measCells ++ [(server, client, m, oracle.measResult client server m)] }) acc

/-- Embedding of `InteropRunner.run` (interop.py:633-718).  For every
(client, server) pair in order, every test case is executed and recorded
(incrementing `nr_failed` on a `FAILED` status), then every measurement is
executed and recorded.  The compliance gate is commented out in the source
("Bypass compliance check for debugging", interop.py:645-651), so
`complianceOf` — the verdict `_check_impl_is_compliant` would return per
implementation — is accepted here but never consulted, and no pair is
skipped.  The recorded cells are as written by the executor;
`_postprocess_results` (embedded separately below) runs afterwards and does
not touch `nr_failed`, which run() then returns. -/
def interopRun (pairs : List (String × String)) (tests measurements : List TestKey)
    (complianceOf : String → Bool) (oracle : RunOracle) : RunResult :=
  pairs.foldl (fun acc pr =>
    runPairMeasurements oracle pr.1 pr.2 measurements
      (runPairTests oracle pr.1 pr.2 tests acc))
    { testCells := [], measCells := [], nrFailed := 0 }

/-- Failure count as claim C6 states it (spec words: "the number of failed
outcomes across the whole run"): failed test cells plus failed measurement
cells. -/
def specFailedCount (r : RunResult) : Nat :=
  (r.testCells.filter (fun c => c.2.2.2 = TestResult.FAILED)).length +
    (r.measCells.filter (fun c => c.2.2.2.result = TestResult.FAILED)).length

/-- Value of a cell of `test_results[server][client]`: either the `{}`
placeholder inserted by `__init__`'s `setdefault` (interop.py:96-98) or a
recorded `TestResult`. -/
inductive Cell where
  | absent
  | res (r : TestResult)
deriving DecidableEq, Repr

/-- Membership in the `questionable` list of `_postprocess_results`
(interop.py:192): the cell holds `FAILED` or `UNSUPPORTED`.  The `{}`
placeholder is not a member, exactly as in Python. -/
def questionable : Cell → Bool
  | Cell.res TestResult.FAILED => true
  | Cell.res TestResult.UNSUPPORTED => true
  | _ => false

/-- The test-result matrix, as a total map `(server, client, test) → Cell`
(the dict-of-dicts with its `setdefault` placeholders). -/
abbrev ResultMatrix := String → String → TestKey → Cell

/-- Client-axis rewrite condition of `_postprocess_results`
(interop.py:194-197): the server axis has more than one member, the client
is not in the opt-out set, and every server's cell for `(c, t)` is
questionable. -/
def clientCond (servers noauto : List String) (m : ResultMatrix) (c : String) (t : TestKey) : Bool :=
  decide (servers.length > 1) && decide (c ∉ noauto) &&
    servers.all (fun s => questionable (m s c t))

/-- Server-axis rewrite condition of `_postprocess_results`
(interop.py:205-208), symmetric to `clientCond`. -/
def serverCond (clients noauto : List String) (m : ResultMatrix) (s : String) (t : TestKey) : Bool :=
  decide (clients.length > 1) && decide (s ∉ noauto) &&
    clients.all (fun c => questionable (m s c t))

/-- First pass of `_postprocess_results` (interop.py:194-203).  The loop
reads only the column of the client/test pair it rewrites and writes only
cells of that same column, so iterations for distinct (client, test) pairs
are independent and the loop equals this simultaneous pointwise update:
cell `(s, c, t)` becomes `UNSUPPORTED` exactly when `s` is a server, `c` an
iterated client, `t` a selected test and `clientCond` holds. -/
def clientPass (servers clients : List String) (tests : List TestKey)
    (noauto : List String) (m : ResultMatrix) : ResultMatrix :=
  fun s c t =>
    if decide (s ∈ servers) && decide (c ∈ clients) && decide (t ∈ tests) &&
        clientCond servers noauto m c t then
      Cell.res TestResult.UNSUPPORTED
    else m s c t

/-- Second pass of `_postprocess_results` (interop.py:204-214), symmetric to
`clientPass`, operating on the matrix the first pass left behind. -/
def serverPass (servers clients : List String) (tests : List TestKey)
    (noauto : List String) (m : ResultMatrix) : ResultMatrix :=
  fun s c t =>
    if decide (s ∈ servers) && decide (c ∈ clients) && decide (t ∈ tests) &&
        serverCond clients noauto m s t then
      Cell.res TestResult.UNSUPPORTED
    else m s c t

/-- Embedding of `InteropRunner._postprocess_results` (interop.py:189-214):
the client pass followed by the server pass.  `servers` and `clients` are
the deduplicated axes drawn from the pair list (interop.py:190-191),
`noauto` the `_no_auto_unsupported` opt-out set. -/
def postprocess_results (servers clients : List String) (tests : List TestKey)
    (noauto : List String) (m : ResultMatrix) : ResultMatrix :=
  serverPass servers clients tests noauto (clientPass servers clients tests noauto m)

/-- Role of an implementation in a probe, as in
`implementations.Role` restricted to the two concrete sides the compliance
probe exercises (interop.py:127-183: first the client, then the server). -/
inductive Role where
  | client
  | server
deriving DecidableEq, Repr

/-- The class-level `InteropRunner.compliant` dict (interop.py:45), keyed by
implementation name. -/
abbrev Cache := List (String × Bool)

/-- Dict lookup, first match (Python dict keys are unique, so first match is
the only match). -/
def cacheLookup : Cache → String → Option Bool
  | [], _ => none
  | (k, v) :: rest, name => if k = name then some v else cacheLookup rest name

/-- Outcome of one `_check_impl_is_compliant` call: the returned boolean,
the `compliant` cache afterwards, and the container probes spawned during
the call (one `docker compose up` per entry, tagged by implementation and
role). -/
structure ComplianceStep where
  verdict : Bool
  cache : Cache
  probes : List (String × Role)
deriving DecidableEq, Repr

/-- Embedding of `InteropRunner._check_impl_is_compliant`
(interop.py:109-187).  `clientOk`/`serverOk` are oracles for whether the
client/server probe's output satisfies `_is_unsupported`.  A cache hit
returns immediately with no probe (interop.py:111-115).  Otherwise the
client probe runs; if it fails, `False` is recorded and returned with no
server probe (interop.py:149-153); otherwise the server probe runs and the
verdict is recorded and returned (interop.py:178-187). -/
def check_impl_is_compliant (cache : Cache) (name : String)
    (clientOk serverOk : Bool) : ComplianceStep :=
  match cacheLookup cache name with
  | some b => { verdict := b, cache := cache, probes := [] }
  | none =>
    if clientOk then
      if serverOk then
        { verdict := true, cache := (name, true) :: cache,
          probes := [(name, Role.client), (name, Role.server)] }
      else
        { verdict := false, cache := (name, false) :: cache,
          probes := [(name, Role.client), (name, Role.server)] }
    else
      { verdict := false, cache := (name, false) :: cache,
        probes := [(name, Role.client)] }

/-- One call of the compliance gate in a process-lifetime trace: the probed
implementation name plus the probe oracles for this call. -/
structure ComplianceCall where
  name : String
  clientOk : Bool
  serverOk : Bool
deriving DecidableEq, Repr

/-- A whole trace of `_check_impl_is_compliant` calls, threading the
class-level `compliant` cache and collecting every probe spawned. -/
def runComplianceCalls : Cache → List ComplianceCall → Cache × List (String × Role)
  | cache, [] => (cache, [])
  | cache, call :: rest =>
    let st := check_impl_is_compliant cache call.name call.clientOk call.serverOk
    let next := runComplianceCalls st.cache rest
    (next.1, st.probes ++ next.2)

/-- Number of probes for a given implementation and role in a probe list. -/
def probeCount (probes : List (String × Role)) (name : String) (role : Role) : Nat :=
  probes.countP (fun p => decide (p.1 = name) && decide (p.2 = role))

/-- Modelled from the spec: the state of the Subnet Allocator (spec
sections 2, 3 "Subnet allocation" and 4.A) — the set of allocated integer
indices, kept as a duplicate-free list.  The allocator belongs to the
parallel scheduler, which is missing from the source under src/ (the Python
source runs every test sequentially and allocates no subnets), so this
group of definitions follows the spec's words.  Every operation runs inside
the allocator's single mutex, so a concurrent execution is an arbitrary
interleaving of atomic operations, i.e. an arbitrary operation sequence. -/
abbrev AllocState := List Nat

/-- Modelled from the spec: scan upward from `cand` for the first index not
in `st`; `fuel` bounds the scan and `st.length + 1` candidates always
contain a free one. -/
def lowestFreeFrom (st : AllocState) : Nat → Nat → Nat
  | 0, cand => cand
  | fuel + 1, cand => if cand ∈ st then lowestFreeFrom st fuel (cand + 1) else cand

/-- Modelled from the spec: the lowest non-allocated non-negative integer. -/
def lowestFree (st : AllocState) : Nat :=
  lowestFreeFrom st (st.length + 1) 0

/-- Lowercase hexadecimal digit. -/
def hexDigit (n : Nat) : Char :=
  if n < 10 then Char.ofNat (48 + n) else Char.ofNat (87 + n)

/-- Hexadecimal digits of `n`, most significant first; fuel-based so that it
evaluates in the kernel. -/
def hexDigitsAux : Nat → Nat → List Char
  | 0, _ => []
  | fuel + 1, n => if n = 0 then [] else hexDigitsAux fuel (n / 16) ++ [hexDigit (n % 16)]

/-- Formatting of `<idx:04x>` from the spec's address plan: lowercase hex,
left-padded with zeros to at least four digits. -/
def hex04 (n : Nat) : String :=
  let ds := if n = 0 then ['0'] else hexDigitsAux (n + 1) n
  String.mk (List.replicate (4 - ds.length) '0' ++ ds)

/-- Modelled from the spec: the address bundle derived from a subnet index
(spec section 4.A). -/
structure AddrBundle where
  subnetV4 : String
  clientV4 : String
  serverV4 : String
  subnetV6 : String
  clientV6 : String
  serverV6 : String
deriving DecidableEq, Repr

/-- Modelled from the spec: the derived address bundle of index `i`
(spec section 4.A), a function of `i` alone. -/
def addrBundle (i : Nat) : AddrBundle :=
  { subnetV4 := "10." ++ toString i
    clientV4 := "10." ++ toString i ++ ".10.10"
    serverV4 := "10." ++ toString i ++ ".222.222"
    subnetV6 := "fd00:cafe:" ++ hex04 i
    clientV6 := "fd00:cafe:" ++ hex04 i ++ ":10::10"
    serverV6 := "fd00:cafe:" ++ hex04 i ++ ":222::222" }

/-- Modelled from the spec: `allocate()` returns the lowest free index, its
derived bundle, and the state with that index reserved. -/
def allocate (st : AllocState) : Nat × AddrBundle × AllocState :=
  (lowestFree st, addrBundle (lowestFree st), lowestFree st :: st)

/-- Modelled from the spec: `release(index)` removes the index from the
allocated set. -/
def release (i : Nat) (st : AllocState) : AllocState :=
  st.filter (fun j => decide (j ≠ i))

/-- One atomic allocator operation of a concurrent execution. -/
inductive AllocOp where
  | alloc
  | free (i : Nat)
deriving DecidableEq, Repr

/-- Application of one atomic allocator operation. -/
def applyAllocOp (st : AllocState) : AllocOp → AllocState
  | AllocOp.alloc => (allocate st).2.2
  | AllocOp.free i => release i st

/-- A serialized concurrent execution: a sequence of atomic allocator
operations applied in order. -/
def applyAllocOps (st : AllocState) (ops : List AllocOp) : AllocState :=
  ops.foldl applyAllocOp st

/-- Association list standing for a Python dict (insertion order at the
tail, keys unique). -/
abbrev PyDict (α β : Type) := List (α × β)

/-- Dict lookup, first match. -/
def dictLookup {α β : Type} [DecidableEq α] : PyDict α β → α → Option β
  | [], _ => none
  | (k, v) :: rest, key => if k = key then some v else dictLookup rest key

/-- Python's `dict.setdefault(k, d)` as a state transformer: insert `k ↦ d`
at the end when `k` is absent; never overwrite. -/
def dictSetdefault {α β : Type} [DecidableEq α] (d : PyDict α β) (k : α) (dv : β) :
    PyDict α β :=
  if (dictLookup d k).isSome then d else d ++ [(k, dv)]

/-- In-place modification of the value stored under `k` (the aliased nested
dict that Python's chained `setdefault` mutates). -/
def dictUpdate {α β : Type} [DecidableEq α] (d : PyDict α β) (k : α) (f : β → β) :
    PyDict α β :=
  d.map (fun p => if p.1 = k then (p.1, f p.2) else p)

/-- The two-level-keyed result maps of `InteropRunner`:
`map[server][client][key]` (interop.py:43-44). -/
abbrev Matrix3 (β : Type) := PyDict String (PyDict String (PyDict String β))

/-- The chained
`map.setdefault(server, {}).setdefault(client, {}).setdefault(key, dv)` of
`InteropRunner.__init__` (interop.py:96-102). -/
def setdefault3 {β : Type} (m : Matrix3 β) (server client key : String) (dv : β) :
    Matrix3 β :=
  let m1 := dictSetdefault m server []
  dictUpdate m1 server (fun inner =>
    let inner1 := dictSetdefault inner client []
    dictUpdate inner1 client (fun inner2 => dictSetdefault inner2 key dv))

/-- Three-level lookup in a result map. -/
def lookup3 {β : Type} (m : Matrix3 β) (server client key : String) : Option β :=
  (dictLookup m server).bind fun inner =>
    (dictLookup inner client).bind fun inner2 => dictLookup inner2 key

/-- The class attributes of `InteropRunner` (interop.py:41-54): one
process-wide value shared by every instance, threaded explicitly here.  A
test cell holds `Cell.absent` for the `{}` placeholder; a measurement cell
holds `none` for it. -/
structure Globals where
  test_results : Matrix3 Cell
  measurement_results : Matrix3 (Option MeasurementResult)
  compliant : Cache

/-- One iteration of `__init__`'s pair loop (interop.py:94-102): for the
pair `pr = (client, server)`, insert the missing keys for every test and
measurement via chained `setdefault`. -/
def initRunnerStep (tests measurements : List TestKey) (g : Globals)
    (pr : String × String) : Globals :=
  { test_results :=
      tests.foldl (fun m t => setdefault3 m pr.2 pr.1 t Cell.absent) g.test_results
    measurement_results :=
      measurements.foldl (fun m k => setdefault3 m pr.2 pr.1 k none) g.measurement_results
    compliant := g.compliant }

/-- Embedding of the effect of `InteropRunner.__init__` on the class-level
maps (interop.py:94-102): for every pair and every test/measurement, insert
the missing keys via chained `setdefault`; nothing is removed or
overwritten, and `compliant` is not touched. -/
def initRunner (g : Globals) (pairs : List (String × String))
    (tests measurements : List TestKey) : Globals :=
  pairs.foldl (initRunnerStep tests measurements) g

/-- C1 counterexample: a run that did not time out, whose output line
`client_1 exited with code 0` matches the regular expression
`client.*exited with code 0` but does not contain the plain substring
`client exited with code 0`, and whose `check()` returns `succeeded`.  The
classification claimed by C1 yields `succeeded`, while `_run_test` returns
`failed`: interop.py:566 tests the plain substring, not the regex. -/
theorem c1_counterexample :
    specVerdictC1
        { certMissing := false, expired := false,
          lines := ["client_1 exited with code 0"],
          check := some TestResult.SUCCEEDED, value := 0 }
      = TestResult.SUCCEEDED ∧
    (run_test false
        { certMissing := false, expired := false,
          lines := ["client_1 exited with code 0"],
          check := some TestResult.SUCCEEDED, value := 0 }).status
      = TestResult.FAILED := by
  constructor <;> decide

/-- C1 (amended): for every `_run_test` call that passes the `cert.pem`
precheck and whose process group does not time out, the verdict is
determined from the captured output in order: an exit-127 substring gives
`unsupported`; otherwise, if some output line contains the plain substring
`client exited with code 0`, the verdict is `test.check()`'s value, with a
raised `FileNotFoundError` giving `failed`; otherwise the verdict is
`failed`. -/
theorem c1_amended (sf : Bool) (inp : RunInput)
    (hc : inp.certMissing = false) (he : inp.expired = false) :
    (is_unsupported inp.lines = true →
        (run_test sf inp).status = TestResult.UNSUPPORTED) ∧
    (is_unsupported inp.lines = false →
      inp.lines.any (fun l => strContains l "client exited with code 0") = true →
        (run_test sf inp).status = inp.check.getD TestResult.FAILED) ∧
    (is_unsupported inp.lines = false →
      inp.lines.any (fun l => strContains l "client exited with code 0") = false →
        (run_test sf inp).status = TestResult.FAILED) := by
  refine ⟨fun h1 => ?_, fun h1 h2 => ?_, fun h1 h2 => ?_⟩
  · simp [run_test, classifyStatus, hc, he, h1]
  · cases h : inp.check <;> simp [run_test, classifyStatus, hc, he, h1, h2, h]
  · simp [run_test, classifyStatus, hc, he, h1, h2]

/-- Witness for `c1_amended` at a concrete input. -/
theorem c1_amended_witness :
    (run_test false
        { certMissing := false, expired := false,
          lines := ["x exit status 127"], check := none, value := 0 }).status
      = TestResult.UNSUPPORTED :=
  (c1_amended false
      { certMissing := false, expired := false,
        lines := ["x exit status 127"], check := none, value := 0 }
      rfl rfl).1 (by decide)

/-- C3 counterexample: a run whose process group timed out and whose captured
output contains `exit status 127`.  Claim C3 says the verdict is
`unsupported`; the code leaves it at `failed`, because the classification
block at interop.py:562 runs only when the subprocess did not time out. -/
theorem c3_counterexample :
    is_unsupported ["exit status 127"] = true ∧
    (run_test false
        { certMissing := false, expired := true,
          lines := ["exit status 127"], check := none, value := 0 }).status
      = TestResult.FAILED ∧
    TestResult.FAILED ≠ TestResult.UNSUPPORTED := by
  refine ⟨by decide, by decide, by decide⟩

/-- C3 (amended): for every `_run_test` call that passes the `cert.pem`
precheck and whose process group exceeds the test case's timeout, a stop
command with a grace bound of 60 seconds is issued and the verdict is
`failed` unconditionally: the captured output is not consulted. -/
theorem c3_amended (sf : Bool) (inp : RunInput)
    (hc : inp.certMissing = false) (he : inp.expired = true) :
    (run_test sf inp).stopGrace = some 60 ∧
    (run_test sf inp).status = TestResult.FAILED := by
  simp [run_test, classifyStatus, hc, he]

/-- Witness for `c3_amended` at a concrete input. -/
theorem c3_amended_witness :
    (run_test false
        { certMissing := false, expired := true,
          lines := ["exit status 127"], check := none, value := 0 }).stopGrace
      = some 60 ∧
    (run_test false
        { certMissing := false, expired := true,
          lines := ["exit status 127"], check := none, value := 0 }).status
      = TestResult.FAILED :=
  c3_amended false
    { certMissing := false, expired := true,
      lines := ["exit status 127"], check := none, value := 0 }
    rfl rfl

/-- C7 counterexample: when the `cert.pem` precheck fails, `_run_test`
returns the terminal verdict `failed` through the early return at
interop.py:439, yet promotes nothing: claim C7's "if and only if the verdict
is terminal" fails in the "if" direction. -/
theorem c7_counterexample :
    (run_test false
        { certMissing := true, expired := false, lines := [],
          check := none, value := 0 }).status = TestResult.FAILED ∧
    (run_test false
        { certMissing := true, expired := false, lines := [],
          check := none, value := 0 }).promoted = false := by
  refine ⟨by decide, by decide⟩

/-- C7 (amended): for every `_run_test` call that passes the `cert.pem`
precheck, the server, client and sim log directories and the per-run output
log file are promoted into the persistent log tree if and only if the
verdict is terminal (`succeeded` or `failed`); an `unsupported` verdict
promotes nothing; and the `www` and `downloads` directories are additionally
preserved exactly when `save_files` is set and the verdict is `failed`.
A run aborted by the missing-`cert.pem` precheck promotes nothing despite
its `failed` verdict. -/
theorem c7_amended (sf : Bool) (inp : RunInput) (hc : inp.certMissing = false) :
    ((run_test sf inp).promoted = true ↔
      ((run_test sf inp).status = TestResult.SUCCEEDED ∨
        (run_test sf inp).status = TestResult.FAILED)) ∧
    ((run_test sf inp).status = TestResult.UNSUPPORTED →
      (run_test sf inp).promoted = false) ∧
    ((run_test sf inp).savedWww = true ↔
      (sf = true ∧ (run_test sf inp).status = TestResult.FAILED)) ∧
    ((run_test sf inp).savedDownloads = true ↔
      (sf = true ∧ (run_test sf inp).status = TestResult.FAILED)) := by
  simp only [run_test, hc, Bool.false_eq_true, if_false]
  cases h : classifyStatus inp <;> cases sf <;> simp

/-- Witness for `c7_amended` at a concrete input. -/
theorem c7_amended_witness :
    (run_test true
        { certMissing := false, expired := false,
          lines := ["client exited with code 0"],
          check := some TestResult.FAILED, value := 0 }).savedWww = true :=
  ((c7_amended true
      { certMissing := false, expired := false,
        lines := ["client exited with code 0"],
        check := some TestResult.FAILED, value := 0 }
      rfl).2.2.1).mpr ⟨rfl, by decide⟩

/-- Helper: the test loop of one pair adds to `nr_failed` exactly the number
of tests whose outcome is `FAILED`. -/
theorem runPairTests_nrFailed (oracle : RunOracle) (client server : String)
    (tests : List TestKey) (acc : RunResult) :
    (runPairTests oracle client server tests acc).nrFailed
      = acc.nrFailed +
          tests.countP (fun t => decide (oracle.testOutcome client server t = TestResult.FAILED)) := by
  induction tests generalizing acc with
  | nil => simp [runPairTests]
  | cons t ts ih =>
      simp only [runPairTests, List.foldl_cons] at ih ⊢
      rw [ih, List.countP_cons]
      by_cases h : oracle.testOutcome client server t = TestResult.FAILED <;>
        simp [h] <;> omega

/-- Helper: the measurement loop of one pair never touches `nr_failed`. -/
theorem runPairMeasurements_nrFailed (oracle : RunOracle) (client server : String)
    (measurements : List TestKey) (acc : RunResult) :
    (runPairMeasurements oracle client server measurements acc).nrFailed = acc.nrFailed := by
  induction measurements generalizing acc with
  | nil => simp [runPairMeasurements]
  | cons m ms ih =>
      simp only [runPairMeasurements, List.foldl_cons] at ih ⊢
      rw [ih]

/-- Helper: the pair loop of `run()` accumulates, over the pairs, the count
of `FAILED` test outcomes. -/
theorem interopRunAux_nrFailed (tests measurements : List TestKey) (oracle : RunOracle)
    (pairs : List (String × String)) (acc : RunResult) :
    ((pairs.foldl (fun acc pr =>
        runPairMeasurements oracle pr.1 pr.2 measurements
          (runPairTests oracle pr.1 pr.2 tests acc)) acc)).nrFailed
      = acc.nrFailed +
          (pairs.map (fun pr =>
            tests.countP (fun t =>
              decide (oracle.testOutcome pr.1 pr.2 t = TestResult.FAILED)))).sum := by
  induction pairs generalizing acc with
  | nil => simp
  | cons pr prs ih =>
      simp only [List.foldl_cons, List.map_cons, List.sum_cons]
      rw [ih, runPairMeasurements_nrFailed, runPairTests_nrFailed]
      omega

/-- C6 counterexample: a run with one pair, no test cases and one
measurement whose result is `failed` returns `nr_failed = 0` from `run()`,
while the number of failed outcomes across the whole run is 1: failed
measurements never increment `nr_failed` (interop.py:689-713). -/
theorem c6_counterexample :
    (interopRun [("c", "s")] [] ["goodput"] (fun _ => true)
        { testOutcome := fun _ _ _ => TestResult.SUCCEEDED,
          measResult := fun _ _ _ => { result := TestResult.FAILED, details := "" } }).nrFailed
      = 0 ∧
    specFailedCount
        (interopRun [("c", "s")] [] ["goodput"] (fun _ => true)
          { testOutcome := fun _ _ _ => TestResult.SUCCEEDED,
            measResult := fun _ _ _ => { result := TestResult.FAILED, details := "" } })
      = 1 ∧
    (0 : Nat) ≠ 1 := by
  refine ⟨by decide, by decide, by decide⟩

/-- C6 (amended): `run()` returns exactly the number of test-case executions
whose verdict was `failed`, counted as they are recorded (so before
post-processing); failed measurements contribute nothing, and nothing else
affects the returned value.  `main` (run.py:200-221) returns this value and
`sys.exit(main())` makes it the process exit code. -/
theorem c6_amended (pairs : List (String × String)) (tests measurements : List TestKey)
    (complianceOf : String → Bool) (oracle : RunOracle) :
    (interopRun pairs tests measurements complianceOf oracle).nrFailed
      = (pairs.map (fun pr =>
          tests.countP (fun t =>
            decide (oracle.testOutcome pr.1 pr.2 t = TestResult.FAILED)))).sum := by
  unfold interopRun
  rw [interopRunAux_nrFailed]
  simp

/-- C2: the compliance gate is bypassed.  With a compliance verdict function
marking every implementation non-compliant, `run()` still executes and
records the pair's test (and its measurement, and counts its failure): the
guard calling `_check_impl_is_compliant` is commented out in the source
("Bypass compliance check for debugging", interop.py:645-651), contradicting
the intent the comment itself documents. -/
theorem c2_code_bug :
    (interopRun [("myclient", "myserver")] ["handshake"] ["goodput"]
        (fun _ => false)
        { testOutcome := fun _ _ _ => TestResult.FAILED,
          measResult := fun _ _ _ => { result := TestResult.FAILED, details := "" } }).testCells
      = [("myserver", "myclient", "handshake", TestResult.FAILED)] ∧
    (interopRun [("myclient", "myserver")] ["handshake"] ["goodput"]
        (fun _ => false)
        { testOutcome := fun _ _ _ => TestResult.FAILED,
          measResult := fun _ _ _ => { result := TestResult.FAILED, details := "" } }).measCells
      ≠ [] ∧
    (interopRun [("myclient", "myserver")] ["handshake"] ["goodput"]
        (fun _ => false)
        { testOutcome := fun _ _ _ => TestResult.FAILED,
          measResult := fun _ _ _ => { result := TestResult.FAILED, details := "" } }).nrFailed
      = 1 := by
  refine ⟨by decide, by decide, by decide⟩

/-- C4: evaluation of `_run_measurement` at the failing input of scenario S6
(spec section 8): five repetitions all succeed with values
9800, 9900, 10000, 10100, 10200 and unit `kbps`.  The code produces
`10000 (Â± 158) kbps` — with the mojibake `Â±` hard-coded at
interop.py:628 — instead of the claimed `10000 (± 158) kbps`.  The
short-circuit half of the claim behaves as stated: when repetition 3 is not
successful, the result is that verdict with empty details. -/
theorem c4_code_bug :
    run_measurement false 5
        (fun i =>
          { certMissing := false, expired := false,
            lines := ["client exited with code 0"],
            check := some TestResult.SUCCEEDED,
            value := [9800, 9900, 10000, 10100, 10200].getD i 0 })
        "kbps"
      = { result := TestResult.SUCCEEDED, details := "10000 (Â± 158) kbps" } ∧
    "10000 (Â± 158) kbps" ≠ "10000 (± 158) kbps" ∧
    run_measurement false 5
        (fun i =>
          { certMissing := false, expired := false,
            lines := if i = 2 then [] else ["client exited with code 0"],
            check := some TestResult.SUCCEEDED,
            value := [9800, 9900, 10000, 10100, 10200].getD i 0 })
        "kbps"
      = { result := TestResult.FAILED, details := "" } := by
  refine ⟨by decide, by decide, by decide⟩

/-- Helper: the client pass never changes whether a cell is questionable —
it rewrites only questionable cells, and rewrites them to `UNSUPPORTED`,
which is itself questionable. -/
theorem questionable_clientPass (servers clients : List String) (tests : List TestKey)
    (noauto : List String) (m : ResultMatrix) (s c : String) (t : TestKey) :
    questionable (clientPass servers clients tests noauto m s c t) = questionable (m s c t) := by
  unfold clientPass
  split
  next h =>
    have hs : s ∈ servers := by
      simp only [Bool.and_eq_true, decide_eq_true_eq] at h
      tauto
    have hall : ∀ x ∈ servers, questionable (m x c t) = true := by
      simp only [Bool.and_eq_true, decide_eq_true_eq, clientCond, List.all_eq_true] at h
      tauto
    rw [hall s hs]
    rfl
  next => rfl

/-- Helper: the server pass's rewrite condition reads only questionable-ness
of cells, which the client pass preserves, so it evaluates the same on the
original matrix and on the client pass's output. -/
theorem serverCond_clientPass (servers clients : List String) (tests : List TestKey)
    (noauto : List String) (m : ResultMatrix) (s : String) (t : TestKey) :
    serverCond clients noauto (clientPass servers clients tests noauto m) s t
      = serverCond clients noauto m s t := by
  unfold serverCond
  simp only [questionable_clientPass]

/-- C5: post-processing rewrites a cell to `unsupported` exactly when one of
the two axis conditions holds on the original matrix (client not opted out
and all servers questionable, or server not opted out and all clients
questionable, each guarded by the opposite axis having more than one
member); it only turns questionable cells into `UNSUPPORTED` (so only
`failed → unsupported` and `unsupported → unsupported`), never modifies a
`succeeded` cell, and a single-member opposite axis disables the rewrite on
that axis. -/
theorem c5_postprocess (servers clients : List String) (tests : List TestKey)
    (noauto : List String) (m : ResultMatrix) (s c : String) (t : TestKey)
    (hs : s ∈ servers) (hc : c ∈ clients) (ht : t ∈ tests) :
    (postprocess_results servers clients tests noauto m s c t
        = if clientCond servers noauto m c t || serverCond clients noauto m s t then
            Cell.res TestResult.UNSUPPORTED
          else m s c t) ∧
    (postprocess_results servers clients tests noauto m s c t ≠ m s c t →
        questionable (m s c t) = true ∧
        postprocess_results servers clients tests noauto m s c t
          = Cell.res TestResult.UNSUPPORTED) ∧
    (m s c t = Cell.res TestResult.SUCCEEDED →
        postprocess_results servers clients tests noauto m s c t
          = Cell.res TestResult.SUCCEEDED) ∧
    (servers.length ≤ 1 → clientCond servers noauto m c t = false) ∧
    (clients.length ≤ 1 → serverCond clients noauto m s t = false) := by
  have ds : decide (s ∈ servers) = true := by simpa using hs
  have dc : decide (c ∈ clients) = true := by simpa using hc
  have dt : decide (t ∈ tests) = true := by simpa using ht
  have key : postprocess_results servers clients tests noauto m s c t
      = if clientCond servers noauto m c t || serverCond clients noauto m s t then
          Cell.res TestResult.UNSUPPORTED
        else m s c t := by
    rcases Bool.eq_false_or_eq_true (clientCond servers noauto m c t) with h1 | h1 <;>
      rcases Bool.eq_false_or_eq_true (serverCond clients noauto m s t) with h2 | h2 <;>
        simp [postprocess_results, serverPass, clientPass, serverCond_clientPass,
          ds, dc, dt, h1, h2]
  have hq_of_cond :
      (clientCond servers noauto m c t || serverCond clients noauto m s t) = true →
        questionable (m s c t) = true := by
    intro h
    have h2 : clientCond servers noauto m c t = true ∨
        serverCond clients noauto m s t = true := by
      simpa using h
    rcases h2 with h | h
    · have := (by
        simp only [clientCond, Bool.and_eq_true, List.all_eq_true] at h
        tauto : ∀ x ∈ servers, questionable (m x c t) = true)
      exact this s hs
    · have := (by
        simp only [serverCond, Bool.and_eq_true, List.all_eq_true] at h
        tauto : ∀ x ∈ clients, questionable (m s x t) = true)
      exact this c hc
  refine ⟨key, ?_, ?_, ?_, ?_⟩
  · intro hne
    rcases Bool.eq_false_or_eq_true
        (clientCond servers noauto m c t || serverCond clients noauto m s t) with h | h
    · exact ⟨hq_of_cond h, by rw [key, h]; simp⟩
    · exfalso
      apply hne
      rw [key, h]
      simp
  · intro hsucc
    rcases Bool.eq_false_or_eq_true
        (clientCond servers noauto m c t || serverCond clients noauto m s t) with h | h
    · exfalso
      have hq := hq_of_cond h
      rw [hsucc] at hq
      simp [questionable] at hq
    · rw [key, h]
      simpa using hsucc
  · intro hlen
    have h1 : ¬ (servers.length > 1) := by omega
    simp [clientCond, h1]
  · intro hlen
    have h1 : ¬ (clients.length > 1) := by omega
    simp [serverCond, h1]

/-- Witness for `c5_postprocess` at a concrete matrix: two servers, one
client, every cell `failed`; the client-axis condition rewrites the cell to
`unsupported`. -/
theorem c5_postprocess_witness :
    postprocess_results ["s1", "s2"] ["c1"] ["t1"] []
        (fun _ _ _ => Cell.res TestResult.FAILED) "s1" "c1" "t1"
      = Cell.res TestResult.UNSUPPORTED := by
  have h := (c5_postprocess ["s1", "s2"] ["c1"] ["t1"] []
      (fun _ _ _ => Cell.res TestResult.FAILED) "s1" "c1" "t1"
      (by decide) (by decide) (by decide)).1
  rw [h]
  decide

/-- Helper: probe counts add over concatenated probe lists. -/
theorem probeCount_append (a b : List (String × Role)) (name : String) (role : Role) :
    probeCount (a ++ b) name role = probeCount a name role + probeCount b name role := by
  simp [probeCount, List.countP_append]

/-- Helper: after any `_check_impl_is_compliant` call, the cache holds the
returned verdict under the probed name. -/
theorem check_cache_self (cache : Cache) (name : String) (clientOk serverOk : Bool) :
    cacheLookup (check_impl_is_compliant cache name clientOk serverOk).cache name
      = some (check_impl_is_compliant cache name clientOk serverOk).verdict := by
  unfold check_impl_is_compliant
  cases h : cacheLookup cache name with
  | some b => simpa using h
  | none => cases clientOk <;> cases serverOk <;> simp [cacheLookup]

/-- Helper: a `_check_impl_is_compliant` call leaves cache entries of other
names untouched. -/
theorem check_cache_other (cache : Cache) (name k : String) (clientOk serverOk : Bool)
    (hne : k ≠ name) :
    cacheLookup (check_impl_is_compliant cache name clientOk serverOk).cache k
      = cacheLookup cache k := by
  unfold check_impl_is_compliant
  cases h : cacheLookup cache name with
  | some b => rfl
  | none => cases clientOk <;> cases serverOk <;> simp [cacheLookup, Ne.symm hne]

/-- Helper: over any trace of compliance calls from any starting cache, the
number of probes spawned for a given implementation and role is bounded by
one, and by zero when the cache already holds a verdict for that name. -/
theorem runCalls_probe_bound (name : String) (role : Role) (calls : List ComplianceCall) :
    ∀ cache : Cache,
      probeCount (runComplianceCalls cache calls).2 name role
        ≤ if (cacheLookup cache name).isSome then 0 else 1 := by
  induction calls with
  | nil =>
      intro cache
      simp [runComplianceCalls, probeCount]
  | cons call rest ih =>
      intro cache
      simp only [runComplianceCalls, probeCount_append]
      cases h : cacheLookup cache call.name with
      | some b =>
          have hstep : check_impl_is_compliant cache call.name call.clientOk call.serverOk
              = { verdict := b, cache := cache, probes := [] } := by
            simp [check_impl_is_compliant, h]
          rw [hstep]
          simpa [probeCount] using ih cache
      | none =>
          by_cases hk : call.name = name
          · subst hk
            have htail := ih (check_impl_is_compliant cache call.name
              call.clientOk call.serverOk).cache
            rw [check_cache_self] at htail
            simp only [Option.isSome_some, if_true] at htail
            have hhead : probeCount (check_impl_is_compliant cache call.name
                call.clientOk call.serverOk).probes call.name role ≤ 1 := by
              unfold check_impl_is_compliant
              rw [h]
              cases call.clientOk <;> cases call.serverOk <;> cases role <;>
                simp [probeCount, List.countP_cons]
            rw [h]
            simp only [Option.isSome_none, Bool.false_eq_true, if_false]
            omega
          · have hhead : probeCount (check_impl_is_compliant cache call.name
                call.clientOk call.serverOk).probes name role = 0 := by
              unfold check_impl_is_compliant
              rw [h]
              cases call.clientOk <;> cases call.serverOk <;>
                simp [probeCount, List.countP_cons, hk]
            have hcache : cacheLookup (check_impl_is_compliant cache call.name
                call.clientOk call.serverOk).cache name = cacheLookup cache name :=
              check_cache_other cache call.name name call.clientOk call.serverOk
                (fun hcontra => hk hcontra.symm)
            have htail := ih (check_impl_is_compliant cache call.name
              call.clientOk call.serverOk).cache
            rw [hcache] at htail
            omega

/-- C8: the compliance probe is memoized.  A call for a name already in the
`compliant` cache returns the cached boolean, leaves the cache unchanged and
spawns no container probe; every call leaves its verdict cached under the
probed name (so all later calls for it hit the cache); and over any trace of
calls in one process lifetime, an implementation is probed at most once per
role. -/
theorem c8_memoized :
    (∀ (cache : Cache) (name : String) (b : Bool) (clientOk serverOk : Bool),
        cacheLookup cache name = some b →
          check_impl_is_compliant cache name clientOk serverOk
            = { verdict := b, cache := cache, probes := [] }) ∧
    (∀ (cache : Cache) (name : String) (clientOk serverOk : Bool),
        cacheLookup (check_impl_is_compliant cache name clientOk serverOk).cache name
          = some (check_impl_is_compliant cache name clientOk serverOk).verdict) ∧
    (∀ (cache : Cache) (calls : List ComplianceCall) (name : String) (role : Role),
        probeCount (runComplianceCalls cache calls).2 name role ≤ 1) := by
  refine ⟨?_, ?_, ?_⟩
  · intro cache name b cOk sOk h
    simp [check_impl_is_compliant, h]
  · intro cache name cOk sOk
    exact check_cache_self cache name cOk sOk
  · intro cache calls name role
    have h := runCalls_probe_bound name role calls cache
    rcases Bool.eq_false_or_eq_true (cacheLookup cache name).isSome with hs | hs <;>
      rw [hs] at h <;> simp at h <;> omega

/-- Witness for `c8_memoized`: a cached implementation is answered from the
cache with no probes, even with failing probe oracles. -/
theorem c8_memoized_witness :
    check_impl_is_compliant [("quiche", true)] "quiche" false false
      = { verdict := true, cache := [("quiche", true)], probes := [] } :=
  c8_memoized.1 [("quiche", true)] "quiche" true false false (by decide)

/-- Helper: among `0 .. st.length` some index is unallocated (pigeonhole). -/
theorem exists_unallocated (st : AllocState) : ∃ n, n ≤ st.length ∧ n ∉ st := by
  by_contra h
  push_neg at h
  have hsub : Finset.range (st.length + 1) ⊆ st.toFinset := by
    intro n hn
    rw [List.mem_toFinset]
    exact h n (by simpa [Nat.lt_succ_iff] using hn)
  have h1 := Finset.card_le_card hsub
  rw [Finset.card_range] at h1
  have h2 := st.toFinset_card_le
  omega

/-- Helper: the upward scan finds a non-member, at or above its starting
candidate, with every skipped candidate a member — provided a free index
exists within the fuel window. -/
theorem lowestFreeFrom_spec (st : AllocState) :
    ∀ fuel cand : Nat, (∃ n, cand ≤ n ∧ n < cand + fuel ∧ n ∉ st) →
      lowestFreeFrom st fuel cand ∉ st ∧ cand ≤ lowestFreeFrom st fuel cand ∧
        ∀ m, cand ≤ m → m < lowestFreeFrom st fuel cand → m ∈ st := by
  intro fuel
  induction fuel with
  | zero =>
      intro cand hex
      obtain ⟨n, h1, h2, _⟩ := hex
      omega
  | succ fuel ih =>
      intro cand hex
      rw [lowestFreeFrom]
      by_cases hc : cand ∈ st
      · rw [if_pos hc]
        obtain ⟨n, h1, h2, h3⟩ := hex
        have hn : cand + 1 ≤ n := by
          rcases Nat.eq_or_lt_of_le h1 with he | hl
          · exact absurd (he ▸ hc) h3
          · omega
        obtain ⟨r1, r2, r3⟩ := ih (cand + 1) ⟨n, hn, by omega, h3⟩
        refine ⟨r1, by omega, ?_⟩
        intro m hm1 hm2
        rcases Nat.eq_or_lt_of_le hm1 with he | hl
        · exact he ▸ hc
        · exact r3 m (by omega) hm2
      · rw [if_neg hc]
        exact ⟨hc, Nat.le_refl _, fun m hm1 hm2 => absurd hm1 (by omega)⟩

/-- Helper: `lowestFree st` is the least index not in `st`. -/
theorem lowestFree_spec (st : AllocState) :
    lowestFree st ∉ st ∧ ∀ m, m < lowestFree st → m ∈ st := by
  obtain ⟨n, hn1, hn2⟩ := exists_unallocated st
  have h := lowestFreeFrom_spec st (st.length + 1) 0 ⟨n, Nat.zero_le _, by omega, hn2⟩
  exact ⟨h.1, fun m hm => h.2.2 m (Nat.zero_le _) hm⟩

/-- Helper: every atomic allocator operation preserves the duplicate-free
invariant of the allocated set. -/
theorem applyAllocOp_nodup (st : AllocState) (op : AllocOp) (h : st.Nodup) :
    (applyAllocOp st op).Nodup := by
  cases op with
  | alloc =>
      simp only [applyAllocOp, allocate]
      exact List.nodup_cons.mpr ⟨(lowestFree_spec st).1, h⟩
  | free i =>
      exact h.filter _

/-- Helper: the invariant holds along any operation sequence. -/
theorem applyAllocOps_nodup (ops : List AllocOp) :
    ∀ st : AllocState, st.Nodup → (applyAllocOps st ops).Nodup := by
  induction ops with
  | nil => intro st h; exact h
  | cons op rest ih =>
      intro st h
      exact ih _ (applyAllocOp_nodup st op h)

/-- C9 (spec-modelled, the allocator is absent from src/): `allocate()`
returns the lowest non-negative integer not currently allocated and
reserves it; the returned bundle is a pure function of the returned index;
`release` is idempotent and releasing an unallocated index is a no-op; and
along any interleaved execution of atomic allocate/release operations the
allocated set never contains a duplicate. -/
theorem c9_allocator :
    (∀ st : AllocState,
        (allocate st).1 ∉ st ∧ (∀ m, m < (allocate st).1 → m ∈ st) ∧
          (allocate st).1 ∈ (allocate st).2.2) ∧
    (∀ st st' : AllocState, (allocate st).1 = (allocate st').1 →
        (allocate st).2.1 = (allocate st').2.1) ∧
    (∀ (i : Nat) (st : AllocState), release i (release i st) = release i st) ∧
    (∀ (i : Nat) (st : AllocState), i ∉ st → release i st = st) ∧
    (∀ ops : List AllocOp, (applyAllocOps [] ops).Nodup) := by
  refine ⟨?_, ?_, ?_, ?_, ?_⟩
  · intro st
    exact ⟨(lowestFree_spec st).1, fun m hm => (lowestFree_spec st).2 m hm,
      by simp [allocate]⟩
  · intro st st' h
    simp only [allocate] at h ⊢
    rw [h]
  · intro i st
    simp [release, List.filter_filter]
  · intro i st h
    rw [release, List.filter_eq_self.mpr]
    intro a ha
    simp only [decide_eq_true_eq]
    exact fun hcontra => h (hcontra ▸ ha)
  · intro ops
    exact applyAllocOps_nodup ops [] List.nodup_nil

/-- Witness for `c9_allocator`: releasing an index that is not allocated
leaves the state untouched. -/
theorem c9_allocator_witness :
    release 5 [0, 1] = [0, 1] :=
  c9_allocator.2.2.2.1 5 [0, 1] (by decide)

/-- Helper: a lookup that succeeds in `d` succeeds identically in `d ++ d'`. -/
theorem dictLookup_cons {α β : Type} [DecidableEq α] (k : α) (w : β)
    (rest : PyDict α β) (key : α) :
    dictLookup ((k, w) :: rest) key = if k = key then some w else dictLookup rest key := rfl

/-- Helper: one step of `dictUpdate`. -/
theorem dictUpdate_cons {α β : Type} [DecidableEq α] (k' : α) (w : β)
    (rest : PyDict α β) (k : α) (f : β → β) :
    dictUpdate ((k', w) :: rest) k f
      = (if k' = k then (k', f w) else (k', w)) :: dictUpdate rest k f := rfl

/-- Helper: a lookup that succeeds in `d` succeeds identically in `d ++ d'`. -/
theorem dictLookup_append_left {α β : Type} [DecidableEq α] (d d' : PyDict α β)
    (key : α) (v : β) (h : dictLookup d key = some v) :
    dictLookup (d ++ d') key = some v := by
  induction d with
  | nil => simp [dictLookup] at h
  | cons p rest ih =>
      cases p with
      | mk k w =>
          rw [List.cons_append]
          rw [dictLookup_cons] at h ⊢
          by_cases hk : k = key
          · rwa [if_pos hk] at h ⊢
          · rw [if_neg hk] at h ⊢
            exact ih h

/-- Helper: a lookup that fails in `d` passes through to `d'` in `d ++ d'`. -/
theorem dictLookup_append_right {α β : Type} [DecidableEq α] (d d' : PyDict α β)
    (key : α) (h : dictLookup d key = none) :
    dictLookup (d ++ d') key = dictLookup d' key := by
  induction d with
  | nil => rfl
  | cons p rest ih =>
      cases p with
      | mk k w =>
          by_cases hk : k = key
          · simp [dictLookup, hk] at h
          · rw [List.cons_append]
            simp only [dictLookup, hk, if_false] at h ⊢
            exact ih h

/-- Helper: `setdefault` never disturbs a successful lookup, of any key. -/
theorem dictLookup_setdefault_of_some {α β : Type} [DecidableEq α] (d : PyDict α β)
    (k key : α) (dv v : β) (h : dictLookup d key = some v) :
    dictLookup (dictSetdefault d k dv) key = some v := by
  unfold dictSetdefault
  split
  · exact h
  · exact dictLookup_append_left d [(k, dv)] key v h

/-- Helper: after `setdefault`, the key is present. -/
theorem dictLookup_setdefault_self {α β : Type} [DecidableEq α] (d : PyDict α β)
    (k : α) (dv : β) : (dictLookup (dictSetdefault d k dv) k).isSome := by
  unfold dictSetdefault
  split
  next h => exact h
  next h =>
    have hnone : dictLookup d k = none := by
      cases hm : dictLookup d k with
      | none => rfl
      | some w => rw [hm] at h; simp at h
    rw [dictLookup_append_right d [(k, dv)] k hnone]
    simp [dictLookup]

/-- Helper: updating the value under `k` maps the lookup of `k`. -/
theorem dictLookup_update_self {α β : Type} [DecidableEq α] (d : PyDict α β)
    (k : α) (f : β → β) :
    dictLookup (dictUpdate d k f) k = (dictLookup d k).map f := by
  induction d with
  | nil => rfl
  | cons p rest ih =>
      cases p with
      | mk k' w =>
          rw [dictUpdate_cons]
          by_cases hk : k' = k
          · rw [if_pos hk, dictLookup_cons, dictLookup_cons, if_pos hk, if_pos hk]
            rfl
          · rw [if_neg hk, dictLookup_cons, dictLookup_cons, if_neg hk, if_neg hk]
            exact ih

/-- Helper: updating the value under `k` leaves other keys' lookups alone. -/
theorem dictLookup_update_other {α β : Type} [DecidableEq α] (d : PyDict α β)
    (k key : α) (f : β → β) (hne : key ≠ k) :
    dictLookup (dictUpdate d k f) key = dictLookup d key := by
  induction d with
  | nil => rfl
  | cons p rest ih =>
      cases p with
      | mk k' w =>
          rw [dictUpdate_cons]
          by_cases hk : k' = k
          · have hk' : ¬ (k' = key) := fun hcontra => hne (hcontra.symm.trans hk)
            rw [if_pos hk, dictLookup_cons, dictLookup_cons, if_neg hk', if_neg hk', ih]
          · rw [if_neg hk, dictLookup_cons, dictLookup_cons, ih]

/-- Helper: `setdefault3` never disturbs a successful three-level lookup. -/
theorem lookup3_setdefault3_of_some {β : Type} (m : Matrix3 β) (s c t s' c' t' : String)
    (dv : β) (v : β) (h : lookup3 m s' c' t' = some v) :
    lookup3 (setdefault3 m s c t dv) s' c' t' = some v := by
  unfold lookup3 at h ⊢
  cases h1 : dictLookup m s' with
  | none => rw [h1] at h; simp at h
  | some inner =>
    rw [h1] at h
    simp only [Option.some_bind] at h
    cases h2 : dictLookup inner c' with
    | none => rw [h2] at h; simp at h
    | some inner2 =>
      rw [h2] at h
      simp only [Option.some_bind] at h
      unfold setdefault3
      by_cases hs : s' = s
      · subst hs
        have h1' : dictLookup (dictSetdefault m s' ([] : PyDict String (PyDict String β))) s'
            = some inner :=
          dictLookup_setdefault_of_some m s' s' [] inner h1
        rw [dictLookup_update_self, h1']
        simp only [Option.map_some', Option.some_bind]
        by_cases hc : c' = c
        · subst hc
          have h2' : dictLookup (dictSetdefault inner c' ([] : PyDict String β)) c'
              = some inner2 :=
            dictLookup_setdefault_of_some inner c' c' [] inner2 h2
          rw [dictLookup_update_self, h2']
          simp only [Option.map_some', Option.some_bind]
          exact dictLookup_setdefault_of_some inner2 t t' dv v h
        · rw [dictLookup_update_other _ _ _ _ hc,
              dictLookup_setdefault_of_some inner c c' [] inner2 h2]
          simp only [Option.some_bind]
          exact h
      · rw [dictLookup_update_other _ _ _ _ hs,
            dictLookup_setdefault_of_some m s s' [] inner h1]
        simp only [Option.some_bind]
        rw [h2]
        simp only [Option.some_bind]
        exact h

/-- Helper: the key chain inserted by `setdefault3` is present afterwards. -/
theorem lookup3_setdefault3_self {β : Type} (m : Matrix3 β) (s c t : String) (dv : β) :
    (lookup3 (setdefault3 m s c t dv) s c t).isSome := by
  unfold lookup3 setdefault3
  obtain ⟨inner, hinner⟩ := Option.isSome_iff_exists.mp
    (dictLookup_setdefault_self m s ([] : PyDict String (PyDict String β)))
  rw [dictLookup_update_self, hinner]
  simp only [Option.map_some', Option.some_bind]
  obtain ⟨inner2, hinner2⟩ := Option.isSome_iff_exists.mp
    (dictLookup_setdefault_self inner c ([] : PyDict String β))
  rw [dictLookup_update_self, hinner2]
  simp only [Option.map_some', Option.some_bind]
  exact dictLookup_setdefault_self inner2 t dv

/-- Helper: the per-key `setdefault3` fold preserves successful lookups. -/
theorem foldl_setdefault3_of_some {β : Type} (dv : β) (s c : String) (keys : List String)
    (m : Matrix3 β) (s' c' t' : String) (v : β) (h : lookup3 m s' c' t' = some v) :
    lookup3 (keys.foldl (fun m t => setdefault3 m s c t dv) m) s' c' t' = some v := by
  induction keys generalizing m with
  | nil => exact h
  | cons t ts ih =>
      rw [List.foldl_cons]
      exact ih _ (lookup3_setdefault3_of_some m s c t s' c' t' dv v h)

/-- Helper: the per-key `setdefault3` fold establishes presence of every
key it iterates over. -/
theorem foldl_setdefault3_isSome {β : Type} (dv : β) (s c : String) (keys : List String)
    (t : String) :
    t ∈ keys →
      ∀ m : Matrix3 β,
        (lookup3 (keys.foldl (fun m k => setdefault3 m s c k dv) m) s c t).isSome := by
  induction keys with
  | nil => intro ht; cases ht
  | cons k ks ih =>
      intro ht m
      rw [List.foldl_cons]
      rcases List.mem_cons.mp ht with he | hm
      · subst he
        obtain ⟨w, hw⟩ := Option.isSome_iff_exists.mp (lookup3_setdefault3_self m s c t dv)
        rw [foldl_setdefault3_of_some dv s c ks _ s c t w hw]
        rfl
      · exact ih hm _

/-- Helper: one unfolding of the pair loop. -/
theorem initRunner_cons (g : Globals) (pr : String × String)
    (prs : List (String × String)) (tests meas : List TestKey) :
    initRunner g (pr :: prs) tests meas
      = initRunner (initRunnerStep tests meas g pr) prs tests meas := by
  rw [initRunner, List.foldl_cons]
  rfl

/-- Helper: `__init__` preserves every recorded test cell. -/
theorem initRunner_test_of_some (pairs : List (String × String)) (tests meas : List TestKey)
    (s' c' t' : String) (v : Cell) :
    ∀ g : Globals, lookup3 g.test_results s' c' t' = some v →
      lookup3 (initRunner g pairs tests meas).test_results s' c' t' = some v := by
  induction pairs with
  | nil => intro g h; exact h
  | cons pr prs ih =>
      intro g h
      rw [initRunner_cons]
      refine ih _ ?_
      show lookup3 (tests.foldl (fun m t => setdefault3 m pr.2 pr.1 t Cell.absent)
          g.test_results) s' c' t' = some v
      exact foldl_setdefault3_of_some Cell.absent pr.2 pr.1 tests g.test_results s' c' t' v h

/-- Helper: `__init__` preserves every recorded measurement cell. -/
theorem initRunner_meas_of_some (pairs : List (String × String)) (tests meas : List TestKey)
    (s' c' t' : String) (v : Option MeasurementResult) :
    ∀ g : Globals, lookup3 g.measurement_results s' c' t' = some v →
      lookup3 (initRunner g pairs tests meas).measurement_results s' c' t' = some v := by
  induction pairs with
  | nil => intro g h; exact h
  | cons pr prs ih =>
      intro g h
      rw [initRunner_cons]
      refine ih _ ?_
      show lookup3 (meas.foldl (fun m k => setdefault3 m pr.2 pr.1 k none)
          g.measurement_results) s' c' t' = some v
      exact foldl_setdefault3_of_some none pr.2 pr.1 meas g.measurement_results s' c' t' v h

/-- Helper: `__init__` never touches the `compliant` cache. -/
theorem initRunner_compliant (pairs : List (String × String)) (tests meas : List TestKey) :
    ∀ g : Globals, (initRunner g pairs tests meas).compliant = g.compliant := by
  induction pairs with
  | nil => intro g; rfl
  | cons pr prs ih =>
      intro g
      rw [initRunner_cons]
      exact ih _

/-- Helper: `__init__` inserts the key chain of every (pair, test). -/
theorem initRunner_test_isSome (pairs : List (String × String)) (tests meas : List TestKey)
    (client server : String) (t : TestKey) :
    (client, server) ∈ pairs → t ∈ tests →
      ∀ g : Globals,
        (lookup3 (initRunner g pairs tests meas).test_results server client t).isSome := by
  induction pairs with
  | nil => intro hp; cases hp
  | cons pr prs ih =>
      intro hp ht g
      rw [initRunner_cons]
      rcases List.mem_cons.mp hp with he | hm
      · obtain ⟨pc, ps⟩ := pr
        cases he
        have hpres := foldl_setdefault3_isSome Cell.absent server client tests t ht
          g.test_results
        obtain ⟨v, hv⟩ := Option.isSome_iff_exists.mp hpres
        have h2 := initRunner_test_of_some prs tests meas server client t v
          (initRunnerStep tests meas g (client, server)) hv
        rw [h2]
        rfl
      · exact ih hm ht _

/-- C10: the result and compliance maps are class attributes of
`InteropRunner` shared by every instance in the process; `__init__` only
inserts missing keys via `setdefault` and never clears or overwrites
anything, so a second runner constructed in the same process observes every
cell and cached compliance verdict recorded by an earlier runner (and adds
the key chains of its own pairs and tests) instead of starting from an
empty matrix. -/
theorem c10_class_state (g : Globals) (pairs : List (String × String))
    (tests meas : List TestKey) :
    (∀ (s c t : String) (v : Cell),
        lookup3 g.test_results s c t = some v →
          lookup3 (initRunner g pairs tests meas).test_results s c t = some v) ∧
    (∀ (s c k : String) (v : Option MeasurementResult),
        lookup3 g.measurement_results s c k = some v →
          lookup3 (initRunner g pairs tests meas).measurement_results s c k = some v) ∧
    (initRunner g pairs tests meas).compliant = g.compliant ∧
    (∀ (client server : String) (t : TestKey),
        (client, server) ∈ pairs → t ∈ tests →
          (lookup3 (initRunner g pairs tests meas).test_results server client t).isSome) := by
  refine ⟨?_, ?_, ?_, ?_⟩
  · intro s c t v h
    exact initRunner_test_of_some pairs tests meas s c t v g h
  · intro s c k v h
    exact initRunner_meas_of_some pairs tests meas s c k v g h
  · exact initRunner_compliant pairs tests meas g
  · intro client server t hp ht
    exact initRunner_test_isSome pairs tests meas client server t hp ht g

/-- Witness for `c10_class_state`: a cell recorded by an earlier runner
survives a second runner's `__init__`. -/
theorem c10_class_state_witness :
    lookup3 (initRunner
        ({ test_results := [("srv", [("cli", [("handshake", Cell.res TestResult.SUCCEEDED)])])]
           measurement_results := []
           compliant := [("srv", true)] } : Globals)
        [("cli", "srv")] ["transfer"] []).test_results "srv" "cli" "handshake"
      = some (Cell.res TestResult.SUCCEEDED) :=
  (c10_class_state
      ({ test_results := [("srv", [("cli", [("handshake", Cell.res TestResult.SUCCEEDED)])])]
         measurement_results := []
         compliant := [("srv", true)] } : Globals)
      [("cli", "srv")] ["transfer"] []).1 "srv" "cli" "handshake"
    (Cell.res TestResult.SUCCEEDED) (by decide)
